import Mathlib

/-!
Verification of the people data-entry application (`src/app.py`) against its
natural-language specification.  The application keeps an in-session list of
person records, validates form input, computes summary statistics, and exports
the list to a spreadsheet or a word-processing document.  Python strings are
modelled as Lean `String`s (lists of characters), Python integers as `Int`,
and the average-age computation — which the program performs in binary64
floating point — as exact rational arithmetic composed with `RN`, the
round-to-nearest-ties-to-even conversion of a rational to the 53-bit double
grid, so the model returns exactly the rational value of the double the
program computes.
-/

namespace PeopleApp

/-- Characters stripped by Python's `str.strip()` (the ASCII whitespace
subset, which is all the application's claims exercise). -/
def pyWhitespace (c : Char) : Bool :=
  c == ' ' || c == '\t' || c == '\n' || c == '\r' || c == '\x0b' || c == '\x0c'

/-- Model of Python's `str.strip()`: drop leading and trailing whitespace. -/
def strip (s : String) : String :=
  String.mk (((s.data.dropWhile pyWhitespace).reverse.dropWhile pyWhitespace).reverse)

/-- One person record, as built by `add_person` in `src/app.py` (the dict with
keys First Name, Last Name, Age, Job Title, City, State). -/
structure Person where
  firstName : String
  lastName : String
  age : Int
  jobTitle : String
  city : String
  state : String
deriving DecidableEq, Repr

/-- The session state the application mutates: `st.session_state.people_data`,
the two message slots, and the `confirm_clear` flag used by the two-step
clear-all flow. -/
structure AppState where
  people_data : List Person
  success_message : String
  error_message : String
  confirm_clear : Bool
deriving DecidableEq, Repr

/-- Session-state defaults set by `StreamlitPeopleManager.__init__` (empty
list, empty messages) and by `st.session_state.get('confirm_clear', False)`. -/
def initState : AppState :=
  { people_data := [], success_message := "", error_message := "", confirm_clear := false }

/-- Translation of `StreamlitPeopleManager.add_person` (src/app.py:92-106):
append the record with `.strip()`ed text fields and `int(age)` (the identity
on our `Int` model of the age), set the success message, clear the error. -/
def add_person (s : AppState) (first last : String) (age : Int)
    (job city st2 : String) : AppState :=
  { s with
    people_data := s.people_data ++
      [{ firstName := strip first, lastName := strip last, age := age,
         jobTitle := strip job, city := strip city, state := strip st2 }],
    success_message := "✅ Added " ++ first ++ " " ++ last ++ " successfully!",
    error_message := "" }

/-- Translation of `StreamlitPeopleManager.validate_input` (src/app.py:108-116):
`not all([...])` on stripped strings is "some stripped field is empty". -/
def validate_input (first last : String) (age : Int)
    (job city st2 : String) : Bool × String :=
  if strip first = "" ∨ strip last = "" ∨ strip job = "" ∨
      strip city = "" ∨ strip st2 = "" then
    (false, "Please fill in all fields!")
  else if age < 1 ∨ age > 120 then
    (false, "Please enter a valid age (1-120)!")
  else
    (true, "")

/-- Translation of `StreamlitPeopleManager.clear_messages` (src/app.py:179-182). -/
def clear_messages (s : AppState) : AppState :=
  { s with success_message := "", error_message := "" }

/-- Translation of the form submit handler (src/app.py:228-239): clear the
messages, validate, then either `add_person` or record the error message. -/
def submit (s : AppState) (first last : String) (age : Int)
    (job city st2 : String) : AppState :=
  if (validate_input first last age job city st2).1 then
    add_person (clear_messages s) first last age job city st2
  else
    { clear_messages s with
      error_message := (validate_input first last age job city st2).2 }

/-- Translation of the Clear All Data button handler (src/app.py:310-319):
when `confirm_clear` is set, empty the list and reset the flag; otherwise arm
the flag (the warning is presentation only). -/
def clear_button (s : AppState) : AppState :=
  if s.confirm_clear then
    { s with people_data := [],
             success_message := "All data cleared successfully!",
             confirm_clear := false }
  else
    { s with confirm_clear := true }

/-- Round-half-to-even to the nearest integer, exactly over ℚ. -/
def pyRound (q : ℚ) : ℤ :=
  if q - ⌊q⌋ < 1/2 then ⌊q⌋
  else if (1 : ℚ)/2 < q - ⌊q⌋ then ⌊q⌋ + 1
  else if (⌊q⌋ : ℤ) % 2 = 0 then ⌊q⌋ else ⌊q⌋ + 1

/-- Round-half-to-even at one decimal place, exactly over ℚ.  This is the
spec's reference rounding (§4.3, documented choice half-to-even), and also
the exact decimal-rounding step inside CPython's `round(x, 1)` on a float
(see `get_statistics`). -/
def round1 (q : ℚ) : ℚ := (pyRound (q * 10) : ℚ) / 10

/-- Round-half-up at one decimal place: the spec's other acceptable
reference rounding (§4.3). -/
def roundHalfUp1 (q : ℚ) : ℚ := (⌊q * 10 + 1/2⌋ : ℚ) / 10

/-- Conversion of an exact rational to the nearest binary64 double (Python
float), as a rational: round to the nearest multiple of `2 ^ (e - 52)` where
`2 ^ e ≤ |q| < 2 ^ (e + 1)`, ties to the even 53-bit mantissa (`pyRound` on
the scaled mantissa is exactly that rule).  Modelled for the normal finite
range: the application's sums, counts and averages sit far inside it, so
overflow and subnormals never arise and are not modelled. -/
def RN (q : ℚ) : ℚ :=
  if q = 0 then 0
  else if q < 0 then
    -((pyRound (-q * 2 ^ (52 - Int.log 2 (-q))) : ℚ) * 2 ^ (Int.log 2 (-q) - 52))
  else
    (pyRound (q * 2 ^ (52 - Int.log 2 q)) : ℚ) * 2 ^ (Int.log 2 q - 52)

/-- Translation of `StreamlitPeopleManager.get_statistics` (src/app.py:118-127):
`(0, 0, 0)` on the empty list, otherwise count, rounded average age, and the
size of the Python `set` of state strings (number of distinct states).  The
average is computed in doubles: `sum(...) / total_count` is CPython int/int
true division, the correctly rounded double `RN (sum / count)`; `round(x, 1)`
on that double is CPython's `double_round` (correctly rounded via David Gay's
dtoa): the exact decimal half-to-even rounding of the double's value,
converted back to the nearest double, `RN (round1 x)`. -/
def get_statistics (s : AppState) : ℕ × ℚ × ℕ :=
  if s.people_data = [] then (0, 0, 0)
  else
    (s.people_data.length,
     RN (round1 (RN (((s.people_data.map Person.age).sum : ℚ) /
       (s.people_data.length : ℚ)))),
     ((s.people_data.map Person.state).dedup).length)

/-- One element of the generated Word document: a heading or a paragraph. -/
inductive DocElem where
  | heading (level : ℕ) (text : String)
  | para (text : String)
deriving DecidableEq, Repr

/-- The per-record sentence built in `create_word_file` (src/app.py:169). -/
def sentence (p : Person) : String :=
  p.firstName ++ " " ++ p.lastName ++ ", " ++ toString p.age ++
    " years old, works as a " ++ p.jobTitle ++ " and lives in " ++
    p.city ++ ", " ++ p.state ++ "."

/-- Translation of `StreamlitPeopleManager.create_word_file` (src/app.py:160-177):
`None` on the empty store; otherwise the heading followed by, per record in
order, its sentence paragraph and a blank spacing paragraph (the loop is the
fold). -/
def create_word_file (s : AppState) : Option (List DocElem) :=
  if s.people_data = [] then none
  else some (s.people_data.foldl
    (fun doc p => doc ++ [DocElem.para (sentence p), DocElem.para ""])
    [DocElem.heading 0 "People Directory"])

/-- One spreadsheet cell: text or a number (Age is stored as a number). -/
inductive Cell where
  | str (v : String)
  | int (v : Int)
deriving DecidableEq, Repr

/-- The header row `pd.DataFrame` derives from the dict keys, in insertion
order (src/app.py:94-101,134). -/
def excelHeader : List Cell :=
  [Cell.str "First Name", Cell.str "Last Name", Cell.str "Age",
   Cell.str "Job Title", Cell.str "City", Cell.str "State"]

/-- The data row a record contributes, in the same column order. -/
def excelRow (p : Person) : List Cell :=
  [Cell.str p.firstName, Cell.str p.lastName, Cell.int p.age,
   Cell.str p.jobTitle, Cell.str p.city, Cell.str p.state]

/-- Translation of `StreamlitPeopleManager.create_excel_file` (src/app.py:129-158):
`None` on the empty store, otherwise the single sheet, header row first, one
row per record in insertion order (column sizing is cosmetic and not
modelled). -/
def create_excel_file (s : AppState) : Option (List (List Cell)) :=
  if s.people_data = [] then none
  else some (excelHeader :: s.people_data.map excelRow)

/-- States reachable through the public operations: the fresh session, a form
submission, and a click of the clear button (rendered only while the store is
non-empty, src/app.py:272). -/
inductive Reachable : AppState → Prop where
  | start : Reachable initState
  | step_submit (s : AppState) (first last : String) (age : Int)
      (job city st2 : String) :
      Reachable s → Reachable (submit s first last age job city st2)
  | step_clear (s : AppState) :
      Reachable s → s.people_data ≠ [] → Reachable (clear_button s)

/-- Reference statistics definition written from the spec (§4.3): count,
`round(sum(ages)/count, 1)`, and the cardinality of the finite set of state
strings under exact string equality. -/
def computeStatisticsSpec (store : List Person) : ℕ × ℚ × ℕ :=
  if store = [] then (0, 0, 0)
  else
    (store.length,
     round1 (((store.map Person.age).sum : ℚ) / (store.length : ℚ)),
     (store.map Person.state).toFinset.card)

/-- Reference document layout written from the spec (§4.5): the title, then
for each record in insertion order its sentence and a blank paragraph. -/
def wordDocSpec (store : List Person) : List DocElem :=
  DocElem.heading 0 "People Directory" ::
    (store.map fun p => [DocElem.para (sentence p), DocElem.para ""]).flatten

/-- A record satisfying the validation contract: every text field non-empty
after trimming and an age in [1, 120]. -/
def validPerson (p : Person) : Prop :=
  strip p.firstName ≠ "" ∧ strip p.lastName ≠ "" ∧ strip p.jobTitle ≠ "" ∧
    strip p.city ≠ "" ∧ strip p.state ≠ "" ∧ 1 ≤ p.age ∧ p.age ≤ 120

/-- A record whose text fields carry no leading or trailing whitespace. -/
def stripFixed (p : Person) : Prop :=
  strip p.firstName = p.firstName ∧ strip p.lastName = p.lastName ∧
    strip p.jobTitle = p.jobTitle ∧ strip p.city = p.city ∧
    strip p.state = p.state

/-- The record of the spec's §8 example. -/
def adaPerson : Person :=
  { firstName := "Ada", lastName := "Lovelace", age := 36,
    jobTitle := "Mathematician", city := "London", state := "England" }

/-- A one-record session state holding the §8 example record. -/
def adaState : AppState :=
  { people_data := [adaPerson], success_message := "",
    error_message := "", confirm_clear := false }

/-- A store of twenty validated records — seventeen of age 1 and three of
age 2 — whose mean age is 23/20 = 1.15, a value strictly above its nearest
double. -/
def meanBoundaryState : AppState :=
  ⟨List.replicate 17 ⟨"A", "B", 1, "J", "C", "NY"⟩ ++
     List.replicate 3 ⟨"D", "E", 2, "K", "F", "CA"⟩, "", "", false⟩

/-- The head an unfinished `dropWhile` stops at fails the predicate. -/
lemma head_false_of_dropWhile_eq_cons {α : Type} {p : α → Bool} :
    ∀ {l : List α} {a : α} {t : List α}, List.dropWhile p l = a :: t → p a = false := by
  intro l
  induction l with
  | nil => intro a t h; simp [List.dropWhile] at h
  | cons b l ih =>
    intro a t h
    rw [List.dropWhile_cons] at h
    by_cases hb : p b
    · rw [if_pos hb] at h
      exact ih h
    · rw [if_neg hb] at h
      cases h
      simpa using hb

/-- Dropping a prefix of `p`-elements twice is the same as dropping it once. -/
lemma dropWhile_idem {α : Type} (p : α → Bool) (l : List α) :
    List.dropWhile p (List.dropWhile p l) = List.dropWhile p l := by
  cases h : List.dropWhile p l with
  | nil => simp
  | cons a t =>
    rw [List.dropWhile_cons, head_false_of_dropWhile_eq_cons h]
    simp

/-- A list is some prefix followed by its `dropWhile`. -/
lemma dropWhile_decomp {α : Type} (p : α → Bool) :
    ∀ l : List α, ∃ t, l = t ++ List.dropWhile p l := by
  intro l
  induction l with
  | nil => exact ⟨[], rfl⟩
  | cons a l ih =>
    by_cases ha : p a
    · obtain ⟨t, ht⟩ := ih
      refine ⟨a :: t, ?_⟩
      rw [List.dropWhile_cons, if_pos ha, List.cons_append, ← ht]
    · exact ⟨[], by rw [List.dropWhile_cons, if_neg ha]; rfl⟩

/-- A stripped string has no leading whitespace left. -/
lemma strip_no_leading (s : String) :
    (strip s).data.dropWhile pyWhitespace = (strip s).data := by
  obtain ⟨t, ht⟩ := dropWhile_decomp pyWhitespace (s.data.dropWhile pyWhitespace).reverse
  cases hr : (strip s).data with
  | nil => simp
  | cons a r =>
    have hl : s.data.dropWhile pyWhitespace = a :: (r ++ t.reverse) := by
      have h1 : s.data.dropWhile pyWhitespace
          = (strip s).data ++ t.reverse := by
        conv_lhs => rw [← List.reverse_reverse (s.data.dropWhile pyWhitespace), ht]
        rw [List.reverse_append]
        rfl
      rw [h1, hr, List.cons_append]
    have hpa : pyWhitespace a = false := by
      have := dropWhile_idem pyWhitespace s.data
      rw [hl] at this
      exact head_false_of_dropWhile_eq_cons this
    rw [List.dropWhile_cons, hpa]
    simp

/-- Python's `strip` is idempotent. -/
lemma strip_strip (s : String) : strip (strip s) = strip s := by
  show String.mk _ = strip s
  rw [strip_no_leading]
  have hd : (strip s).data.reverse
      = (s.data.dropWhile pyWhitespace).reverse.dropWhile pyWhitespace := by
    show ((((s.data.dropWhile pyWhitespace).reverse.dropWhile
        pyWhitespace).reverse)).reverse = _
    rw [List.reverse_reverse]
  rw [hd, dropWhile_idem]
  rfl

/-- Appending blockwise with a fold builds the concatenation of the blocks. -/
lemma foldl_append_map_flatten {α β : Type} (f : α → List β) :
    ∀ (l : List α) (acc : List β),
      l.foldl (fun d x => d ++ f x) acc = acc ++ (l.map f).flatten := by
  intro l
  induction l with
  | nil => intro acc; simp
  | cons a l ih => intro acc; simp [ih, List.append_assoc]

/-- Characterisation of `Int.log 2` from the two binade bounds, used to
evaluate the double exponent at concrete rationals. -/
lemma log2_eq {q : ℚ} {e : ℤ} (h1 : (2 : ℚ) ^ e ≤ q) (h2 : q < (2 : ℚ) ^ (e + 1)) :
    Int.log 2 q = e := by
  have h0 : 0 < q := lt_of_lt_of_le (by positivity) h1
  have h1' : ((2 : ℕ) : ℚ) ^ e ≤ q := by exact_mod_cast h1
  have h2' : q < ((2 : ℕ) : ℚ) ^ (e + 1) := by exact_mod_cast h2
  have hle : e ≤ Int.log 2 q := (Int.zpow_le_iff_le_log (by norm_num) h0).mp h1'
  have hlt : Int.log 2 q < e + 1 := (Int.lt_zpow_iff_log_lt (by norm_num) h0).mp h2'
  omega

/-- Evaluation rule for `RN` once the binade of the input is known. -/
lemma RN_eval {q : ℚ} {e : ℤ} (h1 : (2 : ℚ) ^ e ≤ q) (h2 : q < (2 : ℚ) ^ (e + 1)) :
    RN q = (pyRound (q * 2 ^ (52 - e)) : ℚ) * 2 ^ (e - 52) := by
  have h0 : 0 < q := lt_of_lt_of_le (by positivity) h1
  rw [RN, if_neg (ne_of_gt h0), if_neg (not_lt.mpr h0.le), log2_eq h1 h2]

/-- The mean age of the `meanBoundaryState` store is 23/20 = 1.15. -/
lemma meanBoundaryState_mean :
    ((meanBoundaryState.people_data.map Person.age).sum : ℚ) /
      (meanBoundaryState.people_data.length : ℚ) = 23 / 20 := by
  norm_num [meanBoundaryState, List.sum_replicate]

/-- C1 counterexample: the program's average age diverges from the claimed
exact rounding.  On the validated store of ages `[1] * 17 + [2] * 3` the
mean is 1.15; the nearest double to 1.15 lies just below it, so the program
rounds down and returns the double 1.1 (= `RN (11/10)`), while both
roundings the claim accepts — half-to-even and half-up — give 1.2, so
`get_statistics` differs from the reference definition at this store. -/
theorem get_statistics_deviates_from_exact_rounding :
    (get_statistics meanBoundaryState).2.1 = RN (11 / 10) ∧
    RN (11 / 10) = 4953959590107546 / 4503599627370496 ∧
    round1 ((23 : ℚ) / 20) = 6 / 5 ∧
    roundHalfUp1 ((23 : ℚ) / 20) = 6 / 5 ∧
    (computeStatisticsSpec meanBoundaryState.people_data).2.1 = 6 / 5 ∧
    get_statistics meanBoundaryState ≠ computeStatisticsSpec meanBoundaryState.people_data := by
  have hne : meanBoundaryState.people_data ≠ [] := by decide
  have hRN1 : RN ((23 : ℚ) / 20) = 5179139571476070 / 4503599627370496 := by
    rw [RN_eval (e := 0) (by norm_num) (by norm_num)]
    norm_num [pyRound]
  have hr1 : round1 ((5179139571476070 : ℚ) / 4503599627370496) = 11 / 10 := by
    norm_num [round1, pyRound]
  have hRN2 : RN ((11 : ℚ) / 10) = 4953959590107546 / 4503599627370496 := by
    rw [RN_eval (e := 0) (by norm_num) (by norm_num)]
    norm_num [pyRound]
  have hcode : (get_statistics meanBoundaryState).2.1 = RN (11 / 10) := by
    rw [get_statistics, if_neg hne]
    show RN (round1 (RN _)) = _
    rw [meanBoundaryState_mean, hRN1, hr1]
  have hspec : (computeStatisticsSpec meanBoundaryState.people_data).2.1 = 6 / 5 := by
    rw [computeStatisticsSpec, if_neg hne]
    show round1 _ = _
    rw [meanBoundaryState_mean]
    norm_num [round1, pyRound]
  refine ⟨hcode, hRN2, by norm_num [round1, pyRound], by norm_num [roundHalfUp1],
    hspec, fun heq => ?_⟩
  rw [heq, hspec, hRN2] at hcode
  norm_num at hcode

/-- C1 (amended): `get_statistics` returns `(0, 0.0, 0)` on the empty store
and agrees with the reference definition in its count and distinct-states
components on every store; its average age, however, is the binary64
evaluation of `round(sum / count, 1)`, which agrees with the reference
rounding where the doubles are exact — ages [30, 40] give 35.0 and states
["NY", "NY", "CA"] give 2 distinct states — but can differ at doubles
falling on the other side of a decimal boundary. -/
theorem get_statistics_float_rounding :
    (∀ s : AppState,
      (get_statistics s).1 = (computeStatisticsSpec s.people_data).1) ∧
    (∀ s : AppState,
      (get_statistics s).2.2 = (computeStatisticsSpec s.people_data).2.2) ∧
    (∀ s : AppState, s.people_data = [] → get_statistics s = (0, 0, 0)) ∧
    (get_statistics ⟨[⟨"A", "B", 30, "J", "C", "NY"⟩,
        ⟨"D", "E", 40, "K", "F", "NY"⟩], "", "", false⟩).2.1 = 35 ∧
    (get_statistics ⟨[⟨"A", "B", 30, "J", "C", "NY"⟩,
        ⟨"D", "E", 40, "K", "F", "NY"⟩, ⟨"G", "H", 50, "L", "I", "CA"⟩],
        "", "", false⟩).2.2 = 2 := by
  have hRN35 : RN (35 : ℚ) = 35 := by
    rw [RN_eval (e := 5) (by norm_num) (by norm_num)]
    norm_num [pyRound]
  refine ⟨fun s => ?_, fun s => ?_, fun s h => ?_, ?_, ?_⟩
  · by_cases h : s.people_data = [] <;>
      simp [get_statistics, computeStatisticsSpec, h]
  · by_cases h : s.people_data = [] <;>
      simp [get_statistics, computeStatisticsSpec, h, List.card_toFinset]
  · rw [get_statistics, if_pos h]
  · rw [get_statistics, if_neg (by decide)]
    show RN (round1 (RN _)) = 35
    have hmean : (((30 : ℤ) + (40 + 0) : ℤ) : ℚ) / ((2 : ℕ) : ℚ) = 35 := by
      norm_num
    rw [show ((([⟨"A", "B", 30, "J", "C", "NY"⟩,
        ⟨"D", "E", 40, "K", "F", "NY"⟩] : List Person).map Person.age).sum : ℚ) /
        (([⟨"A", "B", 30, "J", "C", "NY"⟩,
        ⟨"D", "E", 40, "K", "F", "NY"⟩] : List Person).length : ℚ) = 35 by norm_num,
      hRN35]
    rw [show round1 (35 : ℚ) = 35 by norm_num [round1, pyRound], hRN35]
  · simp +decide only [get_statistics, reduceIte]

/-- C3: `validate_input` classifies every input exactly as the error
taxonomy says — `MissingField` (the fill-in message) whenever some text
field is empty after trimming, regardless of the age; `InvalidAge` (the age
message) when all five fields are non-empty after trimming but the age is
outside [1, 120]; success in every other case. -/
theorem validate_input_classification (first last : String) (age : Int)
    (job city st2 : String) :
    ((strip first = "" ∨ strip last = "" ∨ strip job = "" ∨
        strip city = "" ∨ strip st2 = "") →
      validate_input first last age job city st2
        = (false, "Please fill in all fields!")) ∧
    ((strip first ≠ "" ∧ strip last ≠ "" ∧ strip job ≠ "" ∧
        strip city ≠ "" ∧ strip st2 ≠ "") → (age < 1 ∨ age > 120) →
      validate_input first last age job city st2
        = (false, "Please enter a valid age (1-120)!")) ∧
    ((strip first ≠ "" ∧ strip last ≠ "" ∧ strip job ≠ "" ∧
        strip city ≠ "" ∧ strip st2 ≠ "") → 1 ≤ age → age ≤ 120 →
      validate_input first last age job city st2 = (true, "")) := by
  refine ⟨fun h => ?_, fun hf ha => ?_, fun hf h1 h2 => ?_⟩
  · rw [validate_input, if_pos h]
  · obtain ⟨e1, e2, e3, e4, e5⟩ := hf
    rw [validate_input, if_neg (by tauto), if_pos ha]
  · obtain ⟨e1, e2, e3, e4, e5⟩ := hf
    rw [validate_input, if_neg (by tauto), if_neg (by omega)]

/-- C4: when the submitted input fails validation (some text field empty
after trimming, or age outside [1, 120]) the submit handler leaves the
record store exactly unchanged and produces only an error message (the
success message is cleared). -/
theorem submit_rejected_leaves_store (s : AppState) (first last : String)
    (age : Int) (job city st2 : String)
    (h : (strip first = "" ∨ strip last = "" ∨ strip job = "" ∨
        strip city = "" ∨ strip st2 = "") ∨ age < 1 ∨ age > 120) :
    (submit s first last age job city st2).people_data = s.people_data ∧
    (submit s first last age job city st2).error_message ≠ "" ∧
    (submit s first last age job city st2).success_message = "" := by
  have hv : (validate_input first last age job city st2).1 = false ∧
      (validate_input first last age job city st2).2 ≠ "" := by
    rw [validate_input]
    split
    · exact ⟨rfl, by simp⟩
    · rw [if_pos (by tauto)]
      exact ⟨rfl, by simp⟩
  rw [submit, if_neg (by simp [hv.1])]
  exact ⟨rfl, hv.2, rfl⟩

/-- C4 witness: submitting an all-blank first name to a fresh session leaves
the (empty) store unchanged and surfaces only an error message. -/
theorem submit_rejected_leaves_store_witness :
    (submit initState "  " "Lovelace" 36 "Mathematician" "London" "England").people_data
      = initState.people_data ∧
    (submit initState "  " "Lovelace" 36 "Mathematician" "London" "England").error_message ≠ "" ∧
    (submit initState "  " "Lovelace" 36 "Mathematician" "London" "England").success_message = "" :=
  submit_rejected_leaves_store initState "  " "Lovelace" 36 "Mathematician"
    "London" "England" (Or.inl (Or.inl (by decide)))

/-- C8: for every input with all five text fields non-empty after trimming
and age in [1, 120], `validate_input` succeeds and `add_person` appends the
new (trimmed) record at the end of the store, increasing its length by
exactly 1. -/
theorem valid_input_append (s : AppState) (first last : String) (age : Int)
    (job city st2 : String)
    (h1 : strip first ≠ "") (h2 : strip last ≠ "") (h3 : strip job ≠ "")
    (h4 : strip city ≠ "") (h5 : strip st2 ≠ "")
    (h6 : 1 ≤ age) (h7 : age ≤ 120) :
    validate_input first last age job city st2 = (true, "") ∧
    (add_person s first last age job city st2).people_data
      = s.people_data ++
        [⟨strip first, strip last, age, strip job, strip city, strip st2⟩] ∧
    (add_person s first last age job city st2).people_data.length
      = s.people_data.length + 1 := by
  refine ⟨?_, rfl, by simp [add_person]⟩
  rw [validate_input, if_neg (by tauto), if_neg (by omega)]

/-- C8 witness: a concrete valid record passes validation and is appended to
the fresh session's store, growing it from 0 to 1 records. -/
theorem valid_input_append_witness :
    validate_input "Ada" "Lovelace" 36 "Mathematician" "London" "England" = (true, "") ∧
    (add_person initState "Ada" "Lovelace" 36 "Mathematician" "London" "England").people_data
      = initState.people_data ++
        [⟨strip "Ada", strip "Lovelace", 36, strip "Mathematician", strip "London", strip "England"⟩] ∧
    (add_person initState "Ada" "Lovelace" 36 "Mathematician" "London" "England").people_data.length
      = initState.people_data.length + 1 :=
  valid_input_append initState "Ada" "Lovelace" 36 "Mathematician" "London"
    "England" (by decide) (by decide) (by decide) (by decide) (by decide)
    (by decide) (by decide)

/-- C2: on every non-empty store the Word exporter produces exactly the
title "People Directory" followed, per record in insertion order, by the
fixed-form sentence and a blank paragraph; the spec's example record yields
exactly its stated sentence. -/
theorem create_word_file_content (s : AppState) (h : s.people_data ≠ []) :
    create_word_file s = some (wordDocSpec s.people_data) ∧
    sentence adaPerson =
      "Ada Lovelace, 36 years old, works as a Mathematician and lives in London, England." := by
  refine ⟨?_, by decide⟩
  rw [create_word_file, if_neg h, wordDocSpec,
    foldl_append_map_flatten (fun p => [DocElem.para (sentence p), DocElem.para ""])]
  rfl

/-- C2 witness: the one-record store holding the spec's example record
exports to the title followed by the example sentence and a blank
paragraph. -/
theorem create_word_file_content_witness :
    create_word_file adaState = some (wordDocSpec adaState.people_data) ∧
    sentence adaPerson =
      "Ada Lovelace, 36 years old, works as a Mathematician and lives in London, England." :=
  create_word_file_content adaState (by decide)

/-- C6: on every non-empty store the Excel exporter produces a single sheet
whose first row is the six headers First Name, Last Name, Age, Job Title,
City, State in that order, followed by exactly one data row per record, in
the same column order and in insertion order. -/
theorem create_excel_file_layout (s : AppState) (h : s.people_data ≠ []) :
    ∃ sheet, create_excel_file s = some sheet ∧
      sheet.length = s.people_data.length + 1 ∧
      sheet.head? = some excelHeader ∧
      ∀ i : ℕ, sheet[i + 1]? = (s.people_data[i]?).map excelRow := by
  refine ⟨excelHeader :: s.people_data.map excelRow,
    by rw [create_excel_file, if_neg h], by simp, rfl, fun i => ?_⟩
  rw [List.getElem?_cons_succ, List.getElem?_map]

/-- C6 witness: the one-record example store exports to a sheet of the
header row plus that record's row. -/
theorem create_excel_file_layout_witness :
    ∃ sheet, create_excel_file adaState = some sheet ∧
      sheet.length = adaState.people_data.length + 1 ∧
      sheet.head? = some excelHeader ∧
      ∀ i : ℕ, sheet[i + 1]? = (adaState.people_data[i]?).map excelRow :=
  create_excel_file_layout adaState (by decide)

/-- C7: each exporter returns no buffer exactly when the store is empty —
`create_excel_file` and `create_word_file` are `none` on the empty store and
`some` buffer on every non-empty store. -/
theorem export_empty_iff (s : AppState) :
    (create_excel_file s = none ↔ s.people_data = []) ∧
    (create_word_file s = none ↔ s.people_data = []) := by
  constructor
  · rw [create_excel_file]
    split <;> simp_all
  · rw [create_word_file]
    split <;> simp_all

/-- Every record in a reachable store was admitted by validation: it
satisfies the validation contract and its text fields are already
trimmed. -/
lemma reachable_valid_aux (s : AppState) (h : Reachable s) :
    ∀ p ∈ s.people_data, validPerson p ∧ stripFixed p := by
  induction h with
  | start => intro p hp; simp [initState] at hp
  | step_submit s first last age job city st2 _ ih =>
    intro p hp
    rw [submit] at hp
    split at hp
    case isTrue hv =>
      rw [validate_input] at hv
      split_ifs at hv with hc1 hc2
      push_neg at hc1
      obtain ⟨e1, e2, e3, e4, e5⟩ := hc1
      simp [add_person, clear_messages] at hp
      rcases hp with hp | rfl
      · exact ih p hp
      · refine ⟨⟨?_, ?_, ?_, ?_, ?_, ?_, ?_⟩,
          strip_strip first, strip_strip last, strip_strip job,
          strip_strip city, strip_strip st2⟩
        · simpa [strip_strip] using e1
        · simpa [strip_strip] using e2
        · simpa [strip_strip] using e3
        · simpa [strip_strip] using e4
        · simpa [strip_strip] using e5
        · show (1 : Int) ≤ age
          omega
        · show age ≤ (120 : Int)
          omega
    case isFalse =>
      exact ih p hp
  | step_clear s _ hne ih =>
    intro p hp
    rw [clear_button] at hp
    split at hp
    · simp at hp
    · exact ih p hp

/-- C5: in every state reachable through the public operations (fresh
session, validated submit, two-step clear) the store contains only
validated records: all five text fields non-empty after trimming and an age
in [1, 120]. -/
theorem reachable_store_validated (s : AppState) (h : Reachable s) :
    ∀ p ∈ s.people_data, validPerson p :=
  fun p hp => (reachable_valid_aux s h p hp).1

/-- C5 witness: after one valid submission to a fresh session, the stored
example record is a validated record. -/
theorem reachable_store_validated_witness :
    validPerson ⟨"Ada", "Lovelace", 36, "Mathematician", "London", "England"⟩ :=
  reachable_store_validated
    (submit initState "Ada" "Lovelace" 36 "Mathematician" "London" "England")
    (Reachable.step_submit initState "Ada" "Lovelace" 36 "Mathematician"
      "London" "England" Reachable.start)
    ⟨"Ada", "Lovelace", 36, "Mathematician", "London", "England"⟩ (by decide)

/-- C10: `add_person` appends exactly the record whose text fields are the
trimmed inputs and whose age is `int(age)` (the identity on the integer
age), and consequently no record in any reachable store carries leading or
trailing whitespace in a text field. -/
theorem add_person_stores_trimmed :
    (∀ (s : AppState) (first last : String) (age : Int) (job city st2 : String),
        (add_person s first last age job city st2).people_data
          = s.people_data ++
            [⟨strip first, strip last, age, strip job, strip city, strip st2⟩]) ∧
    (∀ s : AppState, Reachable s → ∀ p ∈ s.people_data, stripFixed p) :=
  ⟨fun _ _ _ _ _ _ _ => rfl,
   fun s h p hp => (reachable_valid_aux s h p hp).2⟩

/-- A reachable state with the clear confirmation flag armed: one valid
submission, then a first click of the clear button. -/
def armedState : AppState :=
  clear_button (submit initState "Ada" "Lovelace" 36 "Mathematician" "London" "England")

/-- C9 counterexample: the armed confirmation flag survives an unrelated
action. `armedState` is reachable and armed, yet after a further (valid)
form submission — an unrelated action — the flag is still armed, so a
single later click of the clear button erases the data. -/
theorem armed_flag_survives_submit :
    Reachable armedState ∧ armedState.confirm_clear = true ∧
    (submit armedState "Alan" "Turing" 41 "Logician" "London" "England").confirm_clear
      = true :=
  ⟨Reachable.step_clear _
      (Reachable.step_submit initState "Ada" "Lovelace" 36 "Mathematician"
        "London" "England" Reachable.start) (by decide),
   by decide, by decide⟩

/-- C9 (amended): the clear flow is two-step — a click with the flag down
arms it and leaves the store unchanged, a click with the flag armed clears
the store and disarms — but the flag returns to Idle only through the clear
button: a form submission never changes the flag, so an armed flag does
survive unrelated actions. -/
theorem clear_flow_amended (s : AppState) (first last : String) (age : Int)
    (job city st2 : String) :
    (s.confirm_clear = false →
      (clear_button s).confirm_clear = true ∧
      (clear_button s).people_data = s.people_data) ∧
    (s.confirm_clear = true →
      (clear_button s).confirm_clear = false ∧
      (clear_button s).people_data = []) ∧
    (submit s first last age job city st2).confirm_clear = s.confirm_clear := by
  refine ⟨fun hf => ?_, fun ht => ?_, ?_⟩
  · rw [clear_button, if_neg (by simp [hf])]
    exact ⟨rfl, rfl⟩
  · rw [clear_button, if_pos ht]
    exact ⟨rfl, rfl⟩
  · rw [submit]
    split
    · rfl
    · rfl

end PeopleApp
